import Mathlib

/-!
Verification of the statspi telemetry engine against its design document.

The development shallowly embeds the core of the program:
* `ResponseStats` and `updateRttStats` from src/bus.rs / src/citizen.rs
  (the two files contain byte-identical statistics code);
* the event scoreboard (`onEvent`), the tick aggregator (`onTick`) and the
  second aggregator (`onSecond`) from src/main.rs;
* the health-poller loop body and the peer-directory enumeration loop.

Durations are modelled as natural numbers of nanoseconds.  Rust's
`std::time::Duration` stores seconds as u64 plus a sub-second nanosecond
count below 10^9, so its value range is exactly `0 .. durationMax`.
Machine integers are modelled as `Nat` with explicit reduction modulo
2^w where the source's arithmetic wraps; operations that panic in Rust
(Duration addition overflow, Duration subtraction underflow, division by
zero) are modelled by returning `none`.
-/

def u32Mod : Nat := 2 ^ 32

def u64Mod : Nat := 2 ^ 64

def u128Mod : Nat := 2 ^ 128

/-- Largest value representable by `std::time::Duration`, in nanoseconds:
`u64::MAX` seconds plus `10^9 - 1` nanoseconds. -/
def durationMax : Nat := (u64Mod - 1) * 10 ^ 9 + (10 ^ 9 - 1)

/-- `ResponseStats` from src/bus.rs (identical in src/citizen.rs).
`samples : u32`, `sum : Duration`, `variance : u128`, the remaining
fields `Option<Duration>`. -/
structure ResponseStats where
  samples : Nat
  sum : Nat
  min : Option Nat
  max : Option Nat
  mean : Option Nat
  variance : Nat
  std_dev : Option Nat
deriving Repr, DecidableEq

/-- `ResponseStats::default()`: zero counters, all optional fields unset. -/
def statsDefault : ResponseStats :=
  { samples := 0, sum := 0, min := none, max := none, mean := none,
    variance := 0, std_dev := none }

/-- The `min` update of `update_rtt_stats`:
`if self.stats.min.is_none() || self.stats.min.unwrap() > res { replace(res) }`. -/
def optMin (o : Option Nat) (res : Nat) : Option Nat :=
  match o with
  | none => some res
  | some m => if m > res then some res else some m

/-- The `max` update of `update_rtt_stats`:
`if self.stats.max.is_none() || self.stats.max.unwrap() < res { replace(res) }`. -/
def optMax (o : Option Nat) (res : Nat) : Option Nat :=
  match o with
  | none => some res
  | some m => if m < res then some res else some m

/-- The divisor of the mean computation: `self.stats.samples` right after
`self.stats.samples += 1` (a `u32` increment, wrapping modulo 2^32 in
release builds; a debug build panics at the increment in the same case in
which the wrapped divisor is zero). -/
def meanDivisor (samples : Nat) : Nat := (samples + 1) % u32Mod

/-- `update_rtt_stats` from src/bus.rs lines 92-114 (identical in
src/citizen.rs).  `none` models a Rust panic:
* `self.stats.sum += res` panics when the Duration addition overflows;
* the mean division `self.stats.sum / self.stats.samples` panics when the
  wrapped sample count is zero (in a debug build the increment itself
  panics there);
* `let diff = res - self.stats.mean.unwrap()` is an unsigned Duration
  subtraction and panics when `res` is below the freshly updated mean.
The `u128` accumulation `variance += diff.as_nanos() * diff.as_nanos()`
wraps modulo 2^128 (release semantics).  The source derives `std_dev`
by an f64 square root of `variance` rounded to whole nanoseconds; the
floating-point rounding is approximated here by `Nat.sqrt`, and no claim
depends on the value of this field.
In the source the `min`/`max`/`sum` field writes precede the possible
panics and survive the unwind; no claim depends on the post-panic state,
so the update is modelled as an atomic `Option`. -/
def updateRttStats (s : ResponseStats) (res : Nat) : Option ResponseStats :=
  let min' := optMin s.min res
  let max' := optMax s.max res
  let sum' := s.sum + res
  if durationMax < sum' then none
  else
    let samples' := meanDivisor s.samples
    if samples' = 0 then none
    else
      let mean' := sum' / samples'
      if res < mean' then none
      else
        let diff := res - mean'
        let variance' := (s.variance + diff * diff) % u128Mod
        some { samples := samples', sum := sum', min := min', max := max',
               mean := some mean', variance := variance',
               std_dev := some (Nat.sqrt variance') }

/-- Feeding a sequence of samples one by one; a panic aborts the run. -/
def runUpdates (l : List Nat) (s : ResponseStats) : Option ResponseStats :=
  match l with
  | [] => some s
  | r :: rs =>
    match updateRttStats s r with
    | none => none
    | some s' => runUpdates rs s'

theorem update_step {s : ResponseStats} {res : Nat} {s' : ResponseStats}
    (h : updateRttStats s res = some s') :
    s'.samples = meanDivisor s.samples ∧ meanDivisor s.samples ≠ 0 ∧
    s'.sum = s.sum + res ∧ s'.min = optMin s.min res ∧
    s'.max = optMax s.max res ∧
    s'.mean = some ((s.sum + res) / meanDivisor s.samples) := by
  unfold updateRttStats at h
  simp only [] at h
  split at h
  · exact absurd h (by simp)
  · split at h
    · exact absurd h (by simp)
    · split at h
      · exact absurd h (by simp)
      · rename_i hzero _
        obtain rfl := (Option.some.inj h).symm
        exact ⟨rfl, hzero, rfl, rfl, rfl, rfl⟩

theorem optMin_some (m r : Nat) : optMin (some m) r = some (Nat.min m r) := by
  show (if m > r then some r else some m) = some (if m ≤ r then m else r)
  split <;> split <;> exact congrArg some (by omega)

theorem optMax_some (m r : Nat) : optMax (some m) r = some (Nat.max m r) := by
  show (if m < r then some r else some m) = some (if m ≤ r then r else m)
  split <;> split <;> exact congrArg some (by omega)

theorem foldl_optMin_some (l : List Nat) :
    ∀ a : Nat, l.foldl optMin (some a) = some (l.foldl Nat.min a) := by
  induction l with
  | nil => intro a; rfl
  | cons r rs ih => intro a; simp only [List.foldl_cons, optMin_some, ih]

theorem foldl_optMax_some (l : List Nat) :
    ∀ a : Nat, l.foldl optMax (some a) = some (l.foldl Nat.max a) := by
  induction l with
  | nil => intro a; rfl
  | cons r rs ih => intro a; simp only [List.foldl_cons, optMax_some, ih]

theorem foldl_min_le (l : List Nat) :
    ∀ a : Nat, l.foldl Nat.min a ≤ a ∧ ∀ x ∈ l, l.foldl Nat.min a ≤ x := by
  induction l with
  | nil => intro a; simp
  | cons r rs ih =>
    intro a
    obtain ⟨h1, h2⟩ := ih (Nat.min a r)
    refine ⟨le_trans h1 (Nat.min_le_left a r), ?_⟩
    intro x hx
    rcases List.mem_cons.mp hx with rfl | hx
    · exact le_trans h1 (Nat.min_le_right a x)
    · exact h2 x hx

theorem foldl_min_mem (l : List Nat) :
    ∀ a : Nat, l.foldl Nat.min a = a ∨ l.foldl Nat.min a ∈ l := by
  induction l with
  | nil => intro a; simp
  | cons r rs ih =>
    intro a
    rcases ih (Nat.min a r) with h | h
    · rw [List.foldl_cons, h]
      have hc : Nat.min a r = a ∨ Nat.min a r = r := by
        show (if a ≤ r then a else r) = a ∨ (if a ≤ r then a else r) = r
        split
        · exact Or.inl rfl
        · exact Or.inr rfl
      rcases hc with h2 | h2
      · left; exact h2
      · right; rw [h2]; exact List.mem_cons_self r rs
    · right; rw [List.foldl_cons]; exact List.mem_cons_of_mem r h

theorem foldl_max_ge (l : List Nat) :
    ∀ a : Nat, a ≤ l.foldl Nat.max a ∧ ∀ x ∈ l, x ≤ l.foldl Nat.max a := by
  induction l with
  | nil => intro a; simp
  | cons r rs ih =>
    intro a
    obtain ⟨h1, h2⟩ := ih (Nat.max a r)
    refine ⟨le_trans (Nat.le_max_left a r) h1, ?_⟩
    intro x hx
    rcases List.mem_cons.mp hx with rfl | hx
    · exact le_trans (Nat.le_max_right a x) h1
    · exact h2 x hx

theorem foldl_max_mem (l : List Nat) :
    ∀ a : Nat, l.foldl Nat.max a = a ∨ l.foldl Nat.max a ∈ l := by
  induction l with
  | nil => intro a; simp
  | cons r rs ih =>
    intro a
    rcases ih (Nat.max a r) with h | h
    · rw [List.foldl_cons, h]
      have hc : Nat.max a r = a ∨ Nat.max a r = r := by
        show (if a ≤ r then r else a) = a ∨ (if a ≤ r then r else a) = r
        split
        · exact Or.inr rfl
        · exact Or.inl rfl
      rcases hc with h2 | h2
      · left; exact h2
      · right; rw [h2]; exact List.mem_cons_self r rs
    · right; rw [List.foldl_cons]; exact List.mem_cons_of_mem r h

theorem length_mul_le_sum (l : List Nat) (m : Nat) (h : ∀ x ∈ l, m ≤ x) :
    l.length * m ≤ l.sum := by
  induction l with
  | nil => simp
  | cons r rs ih =>
    simp only [List.length_cons, List.sum_cons, Nat.succ_mul]
    have hr : m ≤ r := h r (List.mem_cons_self r rs)
    have := ih (fun x hx => h x (List.mem_cons_of_mem r hx))
    omega

theorem sum_le_length_mul (l : List Nat) (M : Nat) (h : ∀ x ∈ l, x ≤ M) :
    l.sum ≤ l.length * M := by
  induction l with
  | nil => simp
  | cons r rs ih =>
    simp only [List.length_cons, List.sum_cons, Nat.succ_mul]
    have hr : r ≤ M := h r (List.mem_cons_self r rs)
    have := ih (fun x hx => h x (List.mem_cons_of_mem r hx))
    omega

theorem meanDivisor_of_lt {n : Nat} (hw : n < u32Mod)
    (hne : meanDivisor n ≠ 0) : meanDivisor n = n + 1 := by
  unfold meanDivisor u32Mod at *
  omega

/-- The aggregate behaviour of a completed run of updates starting from an
arbitrary state whose sample count is a representable `u32` value. -/
theorem runUpdates_go (l : List Nat) :
    ∀ s s' : ResponseStats, s.samples < u32Mod → runUpdates l s = some s' →
      s'.samples = s.samples + l.length ∧ s'.samples < u32Mod ∧
      s'.sum = s.sum + l.sum ∧
      s'.min = l.foldl optMin s.min ∧
      s'.max = l.foldl optMax s.max ∧
      (l = [] → s' = s) ∧
      (l ≠ [] → s'.mean = some (s'.sum / s'.samples)) := by
  induction l with
  | nil =>
    intro s s' hw h
    obtain rfl := Option.some.inj h
    simp [hw]
  | cons r rs ih =>
    intro s s' hw h
    rw [runUpdates] at h
    cases hstep : updateRttStats s r with
    | none => rw [hstep] at h; exact absurd h (by simp)
    | some s1 =>
      rw [hstep] at h
      obtain ⟨e1, ene, e3, e4, e5, e6⟩ := update_step hstep
      have hdiv : meanDivisor s.samples = s.samples + 1 := meanDivisor_of_lt hw ene
      have hs1 : s1.samples = s.samples + 1 := by rw [e1, hdiv]
      have hw1 : s1.samples < u32Mod := by
        unfold meanDivisor u32Mod at hdiv
        unfold u32Mod
        omega
      obtain ⟨g1, g2, g3, g4, g5, g6, g7⟩ := ih s1 s' hw1 h
      refine ⟨?_, g2, ?_, ?_, ?_, by simp, ?_⟩
      · rw [g1, hs1, List.length_cons]; omega
      · rw [g3, e3, List.sum_cons]; omega
      · rw [g4, List.foldl_cons, e4]
      · rw [g5, List.foldl_cons, e5]
      · intro _
        rcases eq_or_ne rs ([] : List Nat) with rfl | hrs
        · obtain rfl := g6 rfl
          rw [e6, e3, e1]
        · exact g7 hrs

theorem optMin_isSome (o : Option Nat) (res : Nat) : (optMin o res).isSome := by
  cases o with
  | none => rfl
  | some m =>
    show (if m > res then some res else some m).isSome = true
    split <;> rfl

theorem optMax_isSome (o : Option Nat) (res : Nat) : (optMax o res).isSome := by
  cases o with
  | none => rfl
  | some m =>
    show (if m < res then some res else some m).isSome = true
    split <;> rfl

/-- C1: the spec claims the squared-deviation accumulator uses the absolute
difference between the sample and the post-update mean, so that the update
never underflows or panics.  The source instead computes
`let diff = res - self.stats.mean.unwrap()` with unsigned `Duration`
subtraction, which panics whenever the sample is below the freshly updated
mean.  Failing input: a fresh default `ResponseStats` fed 10 ns and then
2 ns — the second update has post-update mean 6 ns and `2 - 6` underflows,
so the run aborts instead of accumulating `|2 - 6|^2`. -/
theorem update_rtt_variance_underflow : runUpdates [10, 2] statsDefault = none := by
  decide

/-- C2 counterexample: the claim quantifies over every sample sequence fed
to a fresh `ResponseStats`, but feeding 12 ns then 2 ns panics during the
second update (post-update mean 7 ns, and the unsigned subtraction
`2 - 7` underflows), so no final state with the claimed fields exists. -/
theorem runUpdates_fresh_incomplete : runUpdates [12, 2] statsDefault = none := by
  decide

/-- C2 (amended): for every nonempty sequence of duration samples fed via
`update_rtt_stats` to a fresh (default) `ResponseStats` for which every
update completes without panicking, afterwards `samples` equals the number
of samples, `min` is the minimum of the samples, `max` is the maximum of
the samples, and `mean` lies within `[min, max]`. -/
theorem runUpdates_fresh_stats (l : List Nat) (s : ResponseStats)
    (hne : l ≠ []) (h : runUpdates l statsDefault = some s) :
    s.samples = l.length ∧
    (∃ m, s.min = some m ∧ m ∈ l ∧ ∀ x ∈ l, m ≤ x) ∧
    (∃ M, s.max = some M ∧ M ∈ l ∧ ∀ x ∈ l, x ≤ M) ∧
    ∃ μ m M, s.mean = some μ ∧ s.min = some m ∧ s.max = some M ∧
      m ≤ μ ∧ μ ≤ M := by
  obtain ⟨g1, _g2, g3, g4, g5, _g6, g7⟩ :=
    runUpdates_go l statsDefault s (by decide) h
  rw [show statsDefault.min = (none : Option Nat) from rfl] at g4
  rw [show statsDefault.max = (none : Option Nat) from rfl] at g5
  have g1' : s.samples = l.length := by
    have hz : statsDefault.samples = 0 := rfl
    omega
  have g3' : s.sum = l.sum := by
    have hz : statsDefault.sum = 0 := rfl
    omega
  cases l with
  | nil => exact absurd rfl hne
  | cons r rs =>
    have hmin : s.min = some (rs.foldl Nat.min r) := by
      rw [g4, List.foldl_cons]
      exact foldl_optMin_some rs r
    have hmax : s.max = some (rs.foldl Nat.max r) := by
      rw [g5, List.foldl_cons]
      exact foldl_optMax_some rs r
    obtain ⟨hm_le_r, hm_le⟩ := foldl_min_le rs r
    have hm_mem : rs.foldl Nat.min r ∈ r :: rs := by
      rcases foldl_min_mem rs r with he | he
      · rw [he]; exact List.mem_cons_self r rs
      · exact List.mem_cons_of_mem r he
    have hm_lb : ∀ x ∈ r :: rs, rs.foldl Nat.min r ≤ x := by
      intro x hx
      rcases List.mem_cons.mp hx with rfl | hx'
      · exact hm_le_r
      · exact hm_le x hx'
    obtain ⟨hM_ge_r, hM_ge⟩ := foldl_max_ge rs r
    have hM_mem : rs.foldl Nat.max r ∈ r :: rs := by
      rcases foldl_max_mem rs r with he | he
      · rw [he]; exact List.mem_cons_self r rs
      · exact List.mem_cons_of_mem r he
    have hM_ub : ∀ x ∈ r :: rs, x ≤ rs.foldl Nat.max r := by
      intro x hx
      rcases List.mem_cons.mp hx with rfl | hx'
      · exact hM_ge_r
      · exact hM_ge x hx'
    have hlen : 0 < (r :: rs).length := by simp
    have hmean : s.mean = some ((r :: rs).sum / (r :: rs).length) := by
      have hx := g7 (by simp)
      rw [hx, g3', g1']
    refine ⟨g1', ⟨_, hmin, hm_mem, hm_lb⟩, ⟨_, hmax, hM_mem, hM_ub⟩,
      (r :: rs).sum / (r :: rs).length, _, _, hmean, hmin, hmax, ?_, ?_⟩
    · have hmul := length_mul_le_sum (r :: rs) _ hm_lb
      have hmul' : rs.foldl Nat.min r * (r :: rs).length ≤ (r :: rs).sum := by
        rw [Nat.mul_comm]; exact hmul
      exact (Nat.le_div_iff_mul_le hlen).mpr hmul'
    · have hmul := sum_le_length_mul (r :: rs) _ hM_ub
      calc (r :: rs).sum / (r :: rs).length
          ≤ ((r :: rs).length * rs.foldl Nat.max r) / (r :: rs).length :=
            Nat.div_le_div_right hmul
        _ = rs.foldl Nat.max r := Nat.mul_div_cancel_left _ hlen

/-- The final state of feeding 3 ns then 5 ns to a fresh `ResponseStats`. -/
def stats35 : ResponseStats :=
  { samples := 2, sum := 8, min := some 3, max := some 5, mean := some 4,
    variance := 1, std_dev := some 1 }

/-- Witness for the C2 theorem at the concrete sample sequence 3 ns, 5 ns. -/
theorem runUpdates_fresh_stats_witness :
    ([3, 5] : List Nat) ≠ [] ∧ runUpdates [3, 5] statsDefault = some stats35 ∧
    (stats35.samples = [3, 5].length ∧
     (∃ m, stats35.min = some m ∧ m ∈ [3, 5] ∧ ∀ x ∈ [3, 5], m ≤ x) ∧
     (∃ M, stats35.max = some M ∧ M ∈ [3, 5] ∧ ∀ x ∈ [3, 5], x ≤ M) ∧
     ∃ μ m M, stats35.mean = some μ ∧ stats35.min = some m ∧
       stats35.max = some M ∧ m ≤ μ ∧ μ ≤ M) :=
  ⟨by decide, by decide,
   runUpdates_fresh_stats [3, 5] stats35 (by decide) (by decide)⟩

/-- C9: on any state whose `u32` sample count is below `u32::MAX`, the
increment `samples += 1` precedes the mean computation, so the divisor
used by `mean = sum / samples` is the incremented count, which is at
least 1 — the division cannot divide by zero. -/
theorem meanDivisor_spec (s : ResponseStats) (h : s.samples < u32Mod - 1) :
    meanDivisor s.samples = s.samples + 1 ∧ 0 < meanDivisor s.samples ∧
    ∀ res s', updateRttStats s res = some s' →
      s'.mean = some ((s.sum + res) / (s.samples + 1)) := by
  have hd : meanDivisor s.samples = s.samples + 1 := by
    unfold meanDivisor u32Mod at *
    omega
  refine ⟨hd, by omega, ?_⟩
  intro res s' hstep
  obtain ⟨_, _, _, _, _, e6⟩ := update_step hstep
  rw [e6, hd]

/-- The state after feeding a single 7 ns sample to a fresh `ResponseStats`. -/
def stats7 : ResponseStats :=
  { samples := 1, sum := 7, min := some 7, max := some 7, mean := some 7,
    variance := 0, std_dev := some 0 }

/-- Witness for the C9 theorem at the fresh default state and sample 7 ns. -/
theorem meanDivisor_spec_witness :
    statsDefault.samples < u32Mod - 1 ∧
    meanDivisor statsDefault.samples = statsDefault.samples + 1 ∧
    0 < meanDivisor statsDefault.samples ∧
    stats7.mean = some ((statsDefault.sum + 7) / (statsDefault.samples + 1)) :=
  ⟨by decide, (meanDivisor_spec statsDefault (by decide)).1,
   (meanDivisor_spec statsDefault (by decide)).2.1,
   (meanDivisor_spec statsDefault (by decide)).2.2 7 stats7 (by decide)⟩

/-- C10: across any completed call to `update_rtt_stats` on a state with a
representable `u32` sample count, `min` never increases, `max` never
decreases, `samples` grows by exactly one, and the `min`/`max` fields are
set afterwards (never cleared back to unset). -/
theorem update_monotone (s : ResponseStats) (res : Nat) (s' : ResponseStats)
    (hw : s.samples < u32Mod) (h : updateRttStats s res = some s') :
    s'.samples = s.samples + 1 ∧
    (∀ m, s.min = some m → ∃ m', s'.min = some m' ∧ m' ≤ m) ∧
    (∀ M, s.max = some M → ∃ M', s'.max = some M' ∧ M ≤ M') ∧
    s'.min.isSome ∧ s'.max.isSome := by
  obtain ⟨e1, ene, _, e4, e5, _⟩ := update_step h
  have hd := meanDivisor_of_lt hw ene
  refine ⟨by rw [e1, hd], ?_, ?_, ?_, ?_⟩
  · intro m hm
    rw [e4, hm, optMin_some]
    refine ⟨Nat.min m res, rfl, ?_⟩
    show (if m ≤ res then m else res) ≤ m
    split <;> omega
  · intro M hM
    rw [e5, hM, optMax_some]
    refine ⟨Nat.max M res, rfl, ?_⟩
    show M ≤ (if M ≤ res then res else M)
    split <;> omega
  · rw [e4]; exact optMin_isSome s.min res
  · rw [e5]; exact optMax_isSome s.max res

/-- A one-sample state used to witness the C10 theorem. -/
def stateA : ResponseStats :=
  { samples := 1, sum := 10, min := some 10, max := some 10, mean := some 10,
    variance := 0, std_dev := some 0 }

/-- The state after feeding 12 ns to `stateA`. -/
def stateB : ResponseStats :=
  { samples := 2, sum := 22, min := some 10, max := some 12, mean := some 11,
    variance := 1, std_dev := some 1 }

/-- Witness for the C10 theorem at the concrete step from `stateA` by a
12 ns sample. -/
theorem update_monotone_witness :
    stateA.samples < u32Mod ∧ updateRttStats stateA 12 = some stateB ∧
    (stateB.samples = stateA.samples + 1 ∧
     (∀ m, stateA.min = some m → ∃ m', stateB.min = some m' ∧ m' ≤ m) ∧
     (∀ M, stateA.max = some M → ∃ M', stateB.max = some M' ∧ M ≤ M') ∧
     stateB.min.isSome ∧ stateB.max.isSome) :=
  ⟨by decide, by decide,
   update_monotone stateA 12 stateB (by decide) (by decide)⟩

/-- The wrapping `u64` increment `Counter::incr`
(`AtomicU64::fetch_add(1, Relaxed)` in src/main.rs). -/
def incr (c : Nat) : Nat := (c + 1) % u64Mod

/-- The event categories distinguished by the `match` in `App::on_event`
(src/main.rs lines 164-189); `other` stands for any further well-formed
`atspi::Event` variant, caught by the `Ok(_)` arm. -/
inductive AtspiEvent where
  | mouse | keyboard | focus | window | document | object | terminal
  | cache | listener | available | other
deriving Repr, DecidableEq

/-- The `ScoreBoard` counters of src/main.rs lines 84-105 (each an
`AtomicU64`), together with the `total_seconds` accumulator used by
`on_second`. -/
structure ScoreBoard where
  mouse : Nat
  keyboard : Nat
  focus : Nat
  window : Nat
  document : Nat
  object : Nat
  terminal : Nat
  cache : Nat
  listeners : Nat
  available : Nat
  other_event : Nat
  error : Nat
  tick_counter : Nat
  secs_counter : Nat
  total_seconds : Nat
  total : Nat
deriving Repr, DecidableEq

/-- `ScoreBoard::default()`: every counter zero. -/
def scoreBoardDefault : ScoreBoard :=
  { mouse := 0, keyboard := 0, focus := 0, window := 0, document := 0,
    object := 0, terminal := 0, cache := 0, listeners := 0, available := 0,
    other_event := 0, error := 0, tick_counter := 0, secs_counter := 0,
    total_seconds := 0, total := 0 }

/-- `App::on_event` (src/main.rs lines 164-189).  The error set is the
`HashSet<String>` modelled as a list with the source's explicit
`if !set.contains(&msg) { set.insert(msg) }` guard; `format!("{e}")` is
the error's display text, modelled as the error string itself. -/
def onEvent (sb : ScoreBoard) (es : List String)
    (ev : Except String AtspiEvent) : ScoreBoard × List String :=
  let p :=
    match ev with
    | .ok .mouse => ({ sb with mouse := incr sb.mouse }, es)
    | .ok .keyboard => ({ sb with keyboard := incr sb.keyboard }, es)
    | .ok .focus => ({ sb with focus := incr sb.focus }, es)
    | .ok .window => ({ sb with window := incr sb.window }, es)
    | .ok .document => ({ sb with document := incr sb.document }, es)
    | .ok .object => ({ sb with object := incr sb.object }, es)
    | .ok .terminal => ({ sb with terminal := incr sb.terminal }, es)
    | .ok .cache => ({ sb with cache := incr sb.cache }, es)
    | .ok .listener => ({ sb with listeners := incr sb.listeners }, es)
    | .ok .available => ({ sb with available := incr sb.available }, es)
    | .ok .other => ({ sb with other_event := incr sb.other_event }, es)
    | .error e =>
      ({ sb with error := incr sb.error },
       if es.contains e then es else e :: es)
  ({ p.1 with tick_counter := incr p.1.tick_counter,
              secs_counter := incr p.1.secs_counter,
              total := incr p.1.total }, p.2)

/-- Feeding a sequence of stream items through `on_event`. -/
def runEvents (evs : List (Except String AtspiEvent))
    (st : ScoreBoard × List String) : ScoreBoard × List String :=
  evs.foldl (fun p ev => onEvent p.1 p.2 ev) st

/-- The category counters in the order of the `match` arms of `on_event`;
the uncategorized bucket `other_event` is last. -/
def categoryCounters (sb : ScoreBoard) : List Nat :=
  [sb.mouse, sb.keyboard, sb.focus, sb.window, sb.document, sb.object,
   sb.terminal, sb.cache, sb.listeners, sb.available, sb.other_event]

/-- Index of the counter an event's category selects in `categoryCounters`. -/
def catIdx : AtspiEvent → Nat
  | .mouse => 0
  | .keyboard => 1
  | .focus => 2
  | .window => 3
  | .document => 4
  | .object => 5
  | .terminal => 6
  | .cache => 7
  | .listener => 8
  | .available => 9
  | .other => 10

/-- One stream item of each of the 10 recognized categories followed by
one malformed item. -/
def demoEvents : List (Except String AtspiEvent) :=
  [.ok .mouse, .ok .keyboard, .ok .focus, .ok .window, .ok .document,
   .ok .object, .ok .terminal, .ok .cache, .ok .listener, .ok .available,
   .error "malformed event"]

/-- The scoreboard expected after `demoEvents` from a fresh state. -/
def demoBoard : ScoreBoard :=
  { mouse := 1, keyboard := 1, focus := 1, window := 1, document := 1,
    object := 1, terminal := 1, cache := 1, listeners := 1, available := 1,
    other_event := 0, error := 1, tick_counter := 11, secs_counter := 11,
    total_seconds := 0, total := 11 }

/-- C3: a well-formed event increments exactly one category counter (the
uncategorized bucket when no recognized category matches) and leaves the
error counter and error set alone; a malformed event increments the error
counter and inserts its text into the error set only if absent; both kinds
increment the per-tick, per-second and lifetime total counters once.
Consequently one event of each of the 10 recognized categories plus one
malformed event yields every category counter 1, error counter 1, lifetime
total 11, and exactly one error-set entry. -/
theorem onEvent_spec :
    (∀ (sb : ScoreBoard) (es : List String) (e : AtspiEvent),
      categoryCounters (onEvent sb es (.ok e)).1 =
        (categoryCounters sb).set (catIdx e)
          (incr ((categoryCounters sb).getD (catIdx e) 0)) ∧
      (onEvent sb es (.ok e)).1.error = sb.error ∧
      (onEvent sb es (.ok e)).2 = es ∧
      (onEvent sb es (.ok e)).1.tick_counter = incr sb.tick_counter ∧
      (onEvent sb es (.ok e)).1.secs_counter = incr sb.secs_counter ∧
      (onEvent sb es (.ok e)).1.total = incr sb.total) ∧
    (∀ (sb : ScoreBoard) (es : List String) (msg : String),
      categoryCounters (onEvent sb es (.error msg)).1 = categoryCounters sb ∧
      (onEvent sb es (.error msg)).1.error = incr sb.error ∧
      (onEvent sb es (.error msg)).2 =
        (if es.contains msg then es else msg :: es) ∧
      (onEvent sb es (.error msg)).1.tick_counter = incr sb.tick_counter ∧
      (onEvent sb es (.error msg)).1.secs_counter = incr sb.secs_counter ∧
      (onEvent sb es (.error msg)).1.total = incr sb.total) ∧
    runEvents demoEvents (scoreBoardDefault, []) =
      (demoBoard, ["malformed event"]) := by
  refine ⟨?_, ?_, ?_⟩
  · intro sb es e
    cases e <;> exact ⟨rfl, rfl, rfl, rfl, rfl, rfl⟩
  · intro sb es msg
    exact ⟨rfl, rfl, rfl, rfl, rfl, rfl⟩
  · decide

/-- `App::on_tick` (src/main.rs lines 192-200) acting on the `tick_data`
store: `tick_data.pop()` removes the last (oldest) element and
`tick_data.insert(0, value)` puts the freshly reset per-tick counter value
at the front. -/
def onTickData (data : List Nat) (value : Nat) : List Nat :=
  value :: data.dropLast

/-- The initial tick store `vec![0; 200]` (src/main.rs line 150). -/
def tickDataInit : List Nat := List.replicate 200 0

/-- A sequence of `on_tick` calls delivering the given per-tick values. -/
def runTicks (vals : List Nat) (data : List Nat) : List Nat :=
  vals.foldl onTickData data

set_option maxRecDepth 20000 in
/-- C4: `on_tick` preserves the length of the nonempty tick store, places
the newest value at the front, and shifts every surviving entry one slot
back, dropping the oldest (last) entry; starting from the 200-slot
initial store, 201 pushes of the distinct values 1..201 leave a 200-slot
store with 201 in front and the first-pushed value 1 gone. -/
theorem onTick_spec :
    (∀ (data : List Nat) (v : Nat), data ≠ [] →
      (onTickData data v).length = data.length) ∧
    (∀ (data : List Nat) (v : Nat), (onTickData data v).head? = some v) ∧
    (∀ (data : List Nat) (v : Nat) (i : Nat), i + 1 < data.length →
      (onTickData data v)[i + 1]? = data[i]?) ∧
    ((runTicks (List.range' 1 201) tickDataInit).length = 200 ∧
     (runTicks (List.range' 1 201) tickDataInit).head? = some 201 ∧
     1 ∉ runTicks (List.range' 1 201) tickDataInit) := by
  refine ⟨?_, ?_, ?_, by decide, by decide, by decide⟩
  · intro data v hne
    show (v :: data.dropLast).length = data.length
    rw [List.length_cons, List.length_dropLast]
    have : data.length ≠ 0 := fun h0 => hne (List.length_eq_zero.mp h0)
    omega
  · intro data v
    rfl
  · intro data v i hi
    show (v :: data.dropLast)[i + 1]? = data[i]?
    rw [List.getElem?_cons_succ, List.dropLast_eq_take, List.getElem?_take,
      if_pos (by omega)]

/-- Witness for the C4 theorem at concrete stores. -/
theorem onTick_spec_witness :
    (([0] : List Nat) ≠ [] ∧ (onTickData [0] 5).length = [0].length) ∧
    (0 + 1 < ([7, 8] : List Nat).length ∧
     (onTickData [7, 8] 9)[0 + 1]? = [7, 8][0]?) :=
  ⟨⟨by decide, onTick_spec.1 [0] 5 (by decide)⟩,
   ⟨by decide, onTick_spec.2.2.1 [7, 8] 9 0 (by decide)⟩⟩

/-- The `RtStats` summary of src/main.rs lines 107-112 (last rate, peak,
running mean, each an `AtomicU64` counter). -/
structure RtStats where
  rate : Nat
  max : Nat
  mean : Nat
deriving Repr, DecidableEq

/-- `App::on_second` (src/main.rs lines 202-220): read-and-reset the
per-second counter (`Counter::reset` swaps in 0 and returns the old
value), raise the peak when exceeded, store the rate, add the drained
value to the wrapping `total_seconds` lifetime accumulator, append the
value to the per-second history, and set the running mean to
`total_seconds / len` where `len` is the history length after the push
(`len as u64` is the identity for any realizable length). -/
def onSecond (sb : ScoreBoard) (rt : RtStats) (secsData : List Nat) :
    ScoreBoard × RtStats × List Nat :=
  let value := sb.secs_counter
  let sb1 := { sb with secs_counter := 0 }
  let rt1 := if rt.max < value then { rt with max := value } else rt
  let rt2 := { rt1 with rate := value }
  let sb2 := { sb1 with total_seconds := (sb1.total_seconds + value) % u64Mod }
  let data := secsData ++ [value]
  let mean := sb2.total_seconds / data.length
  let rt3 := { rt2 with mean := mean }
  (sb2, rt3, data)

/-- C5: every `on_second` call resets the per-second counter to zero,
appends the drained value to the per-second history, replaces the running
peak only when the new value exceeds it, stores the value as the current
rate, adds it to the lifetime `total_seconds` accumulator, and sets the
running mean to that accumulator divided by the history length — an O(1)
computation from the running total and length, never a scan of the
history. -/
theorem onSecond_spec :
    ∀ (sb : ScoreBoard) (rt : RtStats) (sd : List Nat),
      (onSecond sb rt sd).1.secs_counter = 0 ∧
      (onSecond sb rt sd).2.2 = sd ++ [sb.secs_counter] ∧
      (onSecond sb rt sd).2.1.max =
        (if rt.max < sb.secs_counter then sb.secs_counter else rt.max) ∧
      (onSecond sb rt sd).2.1.rate = sb.secs_counter ∧
      (onSecond sb rt sd).1.total_seconds =
        (sb.total_seconds + sb.secs_counter) % u64Mod ∧
      (onSecond sb rt sd).2.2.length = sd.length + 1 ∧
      (onSecond sb rt sd).2.1.mean =
        (onSecond sb rt sd).1.total_seconds / (onSecond sb rt sd).2.2.length := by
  intro sb rt sd
  refine ⟨rfl, rfl, ?_, rfl, rfl,
    by show (sd ++ [sb.secs_counter]).length = sd.length + 1; simp, rfl⟩
  show (if rt.max < sb.secs_counter
        then { rt with max := sb.secs_counter } else rt).max =
      (if rt.max < sb.secs_counter then sb.secs_counter else rt.max)
  by_cases hc : rt.max < sb.secs_counter
  · rw [if_pos hc, if_pos hc]
  · rw [if_neg hc, if_neg hc]

/-- One poller visit to a peer, the body of the polling loop in
src/main.rs lines 293-303 over the probe `acquire_rtt`
(src/citizen.rs lines 83-90): if the peer's lock is contended the peer is
skipped; otherwise the probe either yields a round-trip duration, which is
fed to `update_rtt_stats`, or fails (error, or — modelled from the spec
for the async `bus::Servers` probe variant absent from src/ — a timeout),
in which case nothing at all happens.  The loop body never touches the
error set, which therefore passes through unchanged; `none` propagates a
panic from the statistics update. -/
def pollPeer (stats : ResponseStats) (es : List String) (lockFree : Bool)
    (probe : Option Nat) : Option (ResponseStats × List String) :=
  if lockFree then
    match probe with
    | none => some (stats, es)
    | some dur =>
      match updateRttStats stats dur with
      | none => none
      | some s' => some (s', es)
  else some (stats, es)

/-- `n` polling rounds in which the peer's probe always fails. -/
def pollFailing : Nat → ResponseStats → Option ResponseStats
  | 0, s => some s
  | n + 1, s =>
    match pollPeer s [] true none with
    | none => none
    | some (s', _) => pollFailing n s'

/-- C6: a probe that times out or errors contributes no sample — the
statistics are left exactly unchanged, no error-log entry is made, and
the visit completes normally (no panic), so the loop continues; hence a
peer whose probes always fail still holds the unset default statistics
after any number of rounds. -/
theorem pollPeer_spec :
    (∀ (stats : ResponseStats) (es : List String) (lockFree : Bool),
      pollPeer stats es lockFree none = some (stats, es)) ∧
    (∀ n : Nat, pollFailing n statsDefault = some statsDefault) := by
  refine ⟨?_, ?_⟩
  · intro stats es lockFree
    cases lockFree <;> rfl
  · intro n
    induction n with
    | zero => rfl
    | succ n ih => exact ih

/-- One candidate bus name examined by the enumeration loop of
`BusPassengers::new` (src/bus.rs lines 123-187, identical in
`BusCitizens::new`, src/citizen.rs): the name string and the outcomes of
the four fallible per-candidate steps — building the `AccessibleProxy`,
the `get_application()` capability probe, reading the accessible name,
and building the `ApplicationProxy`. -/
structure Candidate where
  bus_name : String
  proxy_ok : Bool
  app_check_ok : Bool
  name : Option String
  app_proxy_ok : Bool
deriving Repr, DecidableEq

/-- A retained peer record (`BusPassenger`): its accessible name, bus
name, and statistics; the two proxies are opaque capability handles with
no bearing on any claim. -/
structure Passenger where
  accessible_name : String
  bus_name : String
  stats : ResponseStats
deriving Repr, DecidableEq

/-- `bus_name.starts_with('x')`: the first character is `x`. -/
def startsWithX (s : String) : Bool := s.data.head? = some 'x'

/-- The validation chain applied to one candidate; `some` exactly when
every step succeeds, yielding the record the loop pushes. -/
def buildPassenger (c : Candidate) : Option Passenger :=
  if startsWithX c.bus_name then
    if c.proxy_ok then
      if c.app_check_ok then
        match c.name with
        | none => none
        | some nm =>
          if c.app_proxy_ok then
            some { accessible_name := nm, bus_name := c.bus_name,
                   stats := statsDefault }
          else none
      else none
    else none
  else none

/-- The enumeration loop of `BusPassengers::new`: each failing candidate
is skipped with `continue`; a passing candidate is pushed with a fresh
default statistics record.  The `?`-propagated builder inputs
(interface and path strings, and the destination conversion from an
already-validated `OwnedBusName`) are fixed valid constants in the
source and cannot fail inside the loop. -/
def enumerateLoop : List Candidate → List Passenger
  | [] => []
  | c :: rest =>
    if startsWithX c.bus_name then
      if c.proxy_ok then
        if c.app_check_ok then
          match c.name with
          | none => enumerateLoop rest
          | some nm =>
            if c.app_proxy_ok then
              { accessible_name := nm, bus_name := c.bus_name,
                stats := statsDefault } :: enumerateLoop rest
            else enumerateLoop rest
        else enumerateLoop rest
      else enumerateLoop rest
    else enumerateLoop rest

/-- `BusPassengers::new`: the only propagated failure is from
`list_names` (reaching the bus); with a name listing in hand the loop
always returns normally. -/
def busPassengersNew (r : Except String (List Candidate)) :
    Except String (List Passenger) :=
  match r with
  | .error e => .error e
  | .ok cands => .ok (enumerateLoop cands)

theorem enumerateLoop_eq (cands : List Candidate) :
    enumerateLoop cands = cands.filterMap buildPassenger := by
  induction cands with
  | nil => rfl
  | cons c rest ih =>
    rcases c with ⟨bn, pok, aok, nm, apok⟩
    rcases nm with _ | nm <;> cases pok <;> cases aok <;> cases apok <;>
      by_cases hbn : startsWithX bn = true <;>
      simp [enumerateLoop, buildPassenger, List.filterMap_cons, hbn, ih]

/-- Three valid candidates interleaved with two invalid ones (one whose
name read fails, one whose capability probe fails). -/
def candValid1 : Candidate :=
  { bus_name := "x.org.a11y.App1", proxy_ok := true, app_check_ok := true,
    name := some "App1", app_proxy_ok := true }

def candNoName : Candidate :=
  { bus_name := "x.org.a11y.Bad1", proxy_ok := true, app_check_ok := true,
    name := none, app_proxy_ok := true }

def candValid2 : Candidate :=
  { bus_name := "x.org.a11y.App2", proxy_ok := true, app_check_ok := true,
    name := some "App2", app_proxy_ok := true }

def candNoApp : Candidate :=
  { bus_name := "x.org.a11y.Bad2", proxy_ok := true, app_check_ok := false,
    name := some "Bad2", app_proxy_ok := true }

def candValid3 : Candidate :=
  { bus_name := "x.org.a11y.App3", proxy_ok := true, app_check_ok := true,
    name := some "App3", app_proxy_ok := true }

def demoCands : List Candidate :=
  [candValid1, candNoName, candValid2, candNoApp, candValid3]

def demoPassengers : List Passenger :=
  [{ accessible_name := "App1", bus_name := "x.org.a11y.App1",
     stats := statsDefault },
   { accessible_name := "App2", bus_name := "x.org.a11y.App2",
     stats := statsDefault },
   { accessible_name := "App3", bus_name := "x.org.a11y.App3",
     stats := statsDefault }]

/-- C7: enumeration skips every failing candidate without aborting — the
result is exactly the validated candidates, each retained with a fresh
zeroed statistics record — and the only propagated failure is the
inability to list the bus names; 3 valid peers among 2 invalid candidates
yield exactly 3 records. -/
theorem busPassengersNew_spec :
    (∀ e, busPassengersNew (.error e) = .error e) ∧
    (∀ cands, busPassengersNew (.ok cands) =
      .ok (cands.filterMap buildPassenger)) ∧
    (∀ c p, buildPassenger c = some p → p.stats = statsDefault) ∧
    (busPassengersNew (.ok demoCands) = .ok demoPassengers ∧
     demoPassengers.length = 3 ∧
     demoPassengers.all (fun p => p.stats == statsDefault) = true) := by
  refine ⟨fun e => rfl, ?_, ?_, congrArg Except.ok (by decide), by decide,
    by decide⟩
  · intro cands
    exact congrArg Except.ok (enumerateLoop_eq cands)
  · intro c p h
    unfold buildPassenger at h
    repeat' split at h
    all_goals first
      | (obtain rfl := (Option.some.inj h).symm; rfl)
      | exact absurd h (by simp)

/-- Witness for the C7 theorem: the fresh-statistics implication at a
concrete valid candidate. -/
theorem busPassengersNew_spec_witness :
    buildPassenger candValid1 =
      some { accessible_name := "App1", bus_name := "x.org.a11y.App1",
             stats := statsDefault } ∧
    ({ accessible_name := "App1", bus_name := "x.org.a11y.App1",
       stats := statsDefault } : Passenger).stats = statsDefault ∧
    busPassengersNew (.error "cannot reach the bus") =
      .error "cannot reach the bus" :=
  ⟨by decide,
   busPassengersNew_spec.2.2.1 candValid1
     { accessible_name := "App1", bus_name := "x.org.a11y.App1",
       stats := statsDefault } (by decide),
   busPassengersNew_spec.1 "cannot reach the bus"⟩

/-- Modelled from the spec: the text rendering of the external
`float_pretty_print::PrettyPrintFloat` formatter applied to
`milli / 1000.0` (the crate is not part of src/).  The spec fixes only
the branch structure and that an all-zero record renders as the defined
zero text; the fractional rendering is approximated by integer division,
and no claim depends on nonzero digits. -/
def prettyPrintFloat (milli : Nat) : String :=
  toString (milli / 1000) ++ "." ++ toString (milli % 1000)

/-- The defined zero text for a duration field: the formatter applied to
`0.0`, with the nanosecond unit suffix of the final branch. -/
def zeroNsText : String := prettyPrintFloat 0 ++ "ns"

/-- The `to_pretty` closure of the `Display` implementation for
`ResponseStats` (src/citizen.rs lines 24-59, identical in src/bus.rs):
pick the coarsest unit whose integral part is nonzero — seconds,
milliseconds, microseconds, whole nanoseconds — and render an all-zero
duration as the zero text with the nanosecond suffix. -/
def toPretty (d : Nat) : String :=
  if 0 < d / 10 ^ 9 then prettyPrintFloat (d / 10 ^ 6) ++ "s"
  else if 0 < d / 10 ^ 6 then prettyPrintFloat (d / 10 ^ 3) ++ "ms"
  else if 0 < d / 10 ^ 3 then prettyPrintFloat d ++ "us"
  else if 0 < d then toString d ++ "ns"
  else prettyPrintFloat 0 ++ "ns"

/-- The `Display` implementation for `ResponseStats`: every unset field
falls back to the zero duration (`unwrap_or(Duration::from_secs(0))`) and
the four fields are rendered in a fixed frame.  A pure, total function of
the statistics snapshot. -/
def displayResponseStats (s : ResponseStats) : String :=
  "min: " ++ toPretty (s.min.getD 0) ++
  " max: " ++ toPretty (s.max.getD 0) ++
  " avg: " ++ toPretty (s.mean.getD 0) ++
  " σ: " ++ toPretty (s.std_dev.getD 0)

/-- C8: formatting a default (no-sample) `ResponseStats` always succeeds
(the embedding is a total function) and renders all four fields — min,
max, mean, std-dev — as the defined zero-nanoseconds text; being a pure
function, the same snapshot always yields this same string. -/
theorem display_default_stats :
    displayResponseStats statsDefault =
      "min: " ++ zeroNsText ++ " max: " ++ zeroNsText ++
      " avg: " ++ zeroNsText ++ " σ: " ++ zeroNsText := by
  decide
